import Mathlib

/-!
Verification development for the AI-resume server
(`server/controllers/temp2controller.js`, `server/models/Temp2Model.js`).

The JavaScript code is shallowly embedded: strings are `String`, JS objects
reached by spread/lookup are association lists `List (String × String)`,
MongoDB documents are a Lean structure `ResumeDoc`, the Mongo collection is a
`List ResumeDoc`, and the untrusted generative-model output is passed in as a
raw string together with the outcome of `JSON.parse` on it
(`Option (List (String × String))`, `none` meaning the parse threw).
-/

namespace AiResume

/-! ## JavaScript string primitives (char-list based, so the kernel can evaluate them) -/

/-- JS `String.prototype.trim`: drop leading and trailing whitespace. -/
def jsTrim (s : String) : String :=
  String.mk (((s.data.dropWhile Char.isWhitespace).reverse.dropWhile Char.isWhitespace).reverse)

/-- Worker for `jsSplitChar`: walks the characters, cutting at each separator. -/
def splitCharAux (sep : Char) : List Char → List Char → List String
  | [], acc => [String.mk acc.reverse]
  | c :: cs, acc =>
    if c == sep then String.mk acc.reverse :: splitCharAux sep cs []
    else splitCharAux sep cs (c :: acc)

/-- JS `String.prototype.split` with a single-character separator. -/
def jsSplitChar (sep : Char) (s : String) : List String :=
  splitCharAux sep s.data []

/-- JS `text.split(',')` as used on the model output for `skills`. -/
def jsSplitComma (s : String) : List String :=
  jsSplitChar ',' s

/-! ## JS objects as association lists, spread merge -/

/-- A JS object as an ordered association list of string-valued properties. -/
abbrev EntryObj := List (String × String)

/-- JS property lookup `o[k]`: first binding of the key, if any. -/
def jsGet (o : EntryObj) (k : String) : Option String :=
  (o.find? (fun kv => kv.1 == k)).map (fun kv => kv.2)

/-- JS object spread `{...a, ...b}`: keys of `a` in order with `b`'s value where
the key collides, then keys of `b` that are not in `a`. -/
def spreadMerge (a b : EntryObj) : EntryObj :=
  (a.map (fun kv =>
    match jsGet b kv.1 with
    | some v => (kv.1, v)
    | none => kv))
  ++ b.filter (fun kv => (jsGet a kv.1).isNone)

/-- JS array read `arr[i]` with a possibly negative index: negative indices
read a missing property, i.e. `undefined`. -/
def jsIndex {α : Type} (arr : List α) (i : Int) : Option α :=
  if i < 0 then none else arr[i.toNat]?

/-! ## The resume document (schema of `Temp2Model.js`) -/

/-- A persisted resume document.  Array-of-subdocument fields are kept as raw
JS objects because the enhancement flow merges arbitrary parsed JSON onto
them by spread. -/
structure ResumeDoc where
  _id : Option Nat
  name : String
  role : String
  phone : String
  email : String
  linkedin : String
  location : String
  summary : String
  skills : List String
  experience : List EntryObj
  education : List EntryObj
  achievements : List EntryObj
  courses : List EntryObj
  projects : List EntryObj
deriving Repr, DecidableEq

/-- The array fields supported by per-entry enhancement (the cases of the
entry-mode `switch` in `enhanceField`). -/
inductive EntryField where
  | experience
  | education
  | achievements
  | courses
  | projects
deriving Repr, DecidableEq

def getEntryField (d : ResumeDoc) : EntryField → List EntryObj
  | .experience => d.experience
  | .education => d.education
  | .achievements => d.achievements
  | .courses => d.courses
  | .projects => d.projects

def setEntryField (d : ResumeDoc) : EntryField → List EntryObj → ResumeDoc
  | .experience, a => { d with experience := a }
  | .education, a => { d with education := a }
  | .achievements, a => { d with achievements := a }
  | .courses, a => { d with courses := a }
  | .projects, a => { d with projects := a }

/-- Dispatch of the entry-mode `switch (field)` on the field-name string. -/
def entryField? (f : String) : Option EntryField :=
  if f == "experience" then some .experience
  else if f == "education" then some .education
  else if f == "achievements" then some .achievements
  else if f == "projects" then some .projects
  else if f == "courses" then some .courses
  else none

/-- JS `Array.isArray(resume[field])`: the array-valued properties of a resume
document are the five entry fields plus `skills`. -/
def isArrayFieldName (f : String) : Bool :=
  (entryField? f).isSome || f == "skills"

/-- Length of `resume[field]` for an array-valued field name. -/
def arrayFieldLength (d : ResumeDoc) (f : String) : Nat :=
  match entryField? f with
  | some ef => (getEntryField d ef).length
  | none => d.skills.length

/-! ## Skills parsing and cleaning -/

/-- The expression `enhancedText.split(',').map(skill => skill.trim())` — the whole-field
skills parser in `enhanceField` (no blank filtering). -/
def parseSkills (enhancedText : String) : List String :=
  (jsSplitComma enhancedText).map jsTrim

/-- The `pre('save')` hook of `Temp2Model.js`:
`skills.map(s => s.trim()).filter(s => s.length > 0)`. -/
def cleanSkills (skills : List String) : List String :=
  (skills.map jsTrim).filter (fun s => s.data.length != 0)

/-! ## Validation -/

/-- The email regular expression of the controller and the schema,
`^[^\s@]+@[^\s@]+\.[^\s@]+$`: exactly one at-sign, a nonempty whitespace-free
part before it, and after it a whitespace-free part containing a dot that is
neither its first nor its last character. -/
def emailOk (s : String) : Bool :=
  match jsSplitChar '@' s with
  | [a, d] =>
    a.data.length != 0 && a.data.all (fun c => !c.isWhitespace)
    && d.data.all (fun c => !c.isWhitespace)
    && ((d.data.drop 1).dropLast.contains '.')
  | _ => false

/-- Controller-level `validateResumeData`: name, valid email, phone. -/
def validateResumeData (rd : ResumeDoc) : List String :=
  (if (jsTrim rd.name).data.length == 0 then ["Name is required"] else [])
  ++ (if !(emailOk rd.email) then ["Valid email is required"] else [])
  ++ (if (jsTrim rd.phone).data.length == 0 then ["Phone number is required"] else [])

/-- Character class of the schema's phone validator `^[\d\s\+\-\(\)]+$`. -/
def phoneCharOk (c : Char) : Bool :=
  c.isDigit || c.isWhitespace || c == '+' || c == '-' || c == '(' || c == ')'

/-- Required sub-fields of each entry schema in `Temp2Model.js`. -/
def requiredKeys : EntryField → List String
  | .experience => ["title", "companyName", "date", "companyLocation", "description", "accomplishment"]
  | .education => ["degree", "institution", "duration", "grade"]
  | .achievements => ["keyAchievements", "describe"]
  | .courses => ["title", "description"]
  | .projects => ["title", "duration", "description"]

/-- Mongoose subdocument validation: every required key present and nonempty
after trimming. -/
def entryOk (f : EntryField) (e : EntryObj) : Bool :=
  (requiredKeys f).all (fun k => (jsTrim ((jsGet e k).getD "")).data.length != 0)

/-- Mongoose document validation of `resumeSchema`: required scalars nonempty
after the trim setter, length caps, phone character class, email pattern, and
every collection nonempty with valid entries. -/
def schemaValidate (d : ResumeDoc) : Bool :=
  (jsTrim d.name).data.length != 0 && decide ((jsTrim d.name).data.length ≤ 100)
  && (jsTrim d.role).data.length != 0 && decide ((jsTrim d.role).data.length ≤ 100)
  && (jsTrim d.phone).data.length != 0 && (jsTrim d.phone).data.all phoneCharOk
  && emailOk (jsTrim d.email)
  && (jsTrim d.linkedin).data.length != 0
  && (jsTrim d.location).data.length != 0 && decide ((jsTrim d.location).data.length ≤ 100)
  && (jsTrim d.summary).data.length != 0 && decide ((jsTrim d.summary).data.length ≤ 1000)
  && d.experience.length != 0 && d.experience.all (entryOk .experience)
  && d.education.length != 0 && d.education.all (entryOk .education)
  && d.achievements.length != 0 && d.achievements.all (entryOk .achievements)
  && d.courses.length != 0 && d.courses.all (entryOk .courses)
  && d.skills.length != 0
  && d.projects.length != 0 && d.projects.all (entryOk .projects)

/-! ## Store operations

`Resume.findByIdAndUpdate(id, {$set: doc}, {runValidators})` is a query-path
update: it replaces the document's fields and runs (update) validators when
asked, but it does **not** run the schema's `pre('save')` document middleware.
Only `new Resume(...).save()` runs the hook.  `lastSavedAt` and `createdBy`
are not schema paths, so strict mode strips them from every write. -/

/-- Full-document `findByIdAndUpdate`: `.error` models a thrown
`ValidationError` or a `null` result (no document with that id). -/
def findByIdAndUpdateFull (store : List ResumeDoc) (i : Nat) (rd : ResumeDoc)
    (runValidators : Bool) : Except String (List ResumeDoc × ResumeDoc) :=
  if store.any (fun dd => dd._id == some i) then
    if runValidators && !schemaValidate rd then .error "ValidationError"
    else
      .ok (store.map (fun dd => if dd._id == some i then { rd with _id := some i } else dd),
           { rd with _id := some i })
  else .error "Resume not found"

/-- Controller `saveResumeData(resumeData, {isAutoSave})`: controller
validation (skipped for autosave), then update by `_id`, else update the
document found by email, else create via `new Resume(...).save()` — the only
branch that runs the `pre('save')` skills cleaning.  `nid` is the id Mongo
assigns to a fresh document. -/
def saveResumeData (store : List ResumeDoc) (rd : ResumeDoc) (isAutoSave : Bool)
    (nid : Nat) : Except String (List ResumeDoc × ResumeDoc) :=
  if !isAutoSave && (validateResumeData rd).length != 0 then .error "Validation failed"
  else
    match rd._id with
    | some i => findByIdAndUpdateFull store i rd (!isAutoSave)
    | none =>
      match store.find? (fun dd => dd.email == rd.email) with
      | some existing =>
        match existing._id with
        | some i => findByIdAndUpdateFull store i rd (!isAutoSave)
        | none => .error "Resume not found"
      | none =>
        if schemaValidate rd then
          .ok (store ++ [{ rd with _id := some nid, skills := cleanSkills rd.skills }],
               { rd with _id := some nid, skills := cleanSkills rd.skills })
        else .error "ValidationError"

/-! ## Autosave change tracking

`changeTrackers` maps a user to `{lastData, pendingSave, lastSavedAt}`.
`debouncedAutoSave` is a lodash-debounced function: edits within the
quiescence window coalesce into a single pending invocation that keeps only
the latest arguments; we model that pending invocation as `pendingCall` and
the timer firing as `fireDebounce`.  `writes` records the successful store
writes performed by the autosave path. -/

structure Tracker where
  lastData : ResumeDoc
  pendingSave : Bool
  lastSavedAt : Option Nat
deriving Repr, DecidableEq

structure AutoState where
  store : List ResumeDoc
  tracker : Option Tracker
  pendingCall : Option ResumeDoc
  writes : List ResumeDoc
deriving Repr, DecidableEq

/-- Controller `trackChanges(userId, resumeData)`: create the tracker on first contact
(`pendingSave: false`), otherwise set `pendingSave` unconditionally; then
re-arm the debounced autosave with the newest data. -/
def trackChanges (s : AutoState) (d : ResumeDoc) : AutoState :=
  match s.tracker with
  | none =>
    { s with tracker := some { lastData := d, pendingSave := false, lastSavedAt := none },
             pendingCall := some d }
  | some t =>
    { s with tracker := some { lastData := t.lastData, pendingSave := true,
                               lastSavedAt := t.lastSavedAt },
             pendingCall := some d }

/-- The debounce timer firing: run the body of `debouncedAutoSave` on the
latest pending arguments.  A save is attempted only when the tracker is
pending and the data differs from `lastData`; a failed save is caught and
logged, leaving the tracker untouched. -/
def fireDebounce (s : AutoState) (nid : Nat) (now : Nat) : AutoState :=
  match s.pendingCall with
  | none => s
  | some d =>
    match s.tracker with
    | none => { s with pendingCall := none }
    | some t =>
      if t.pendingSave && t.lastData != d then
        match saveResumeData s.store d true nid with
        | .ok (st2, _) =>
          { store := st2,
            tracker := some { lastData := d, pendingSave := false, lastSavedAt := some now },
            pendingCall := none,
            writes := s.writes ++ [d] }
        | .error _ => { s with pendingCall := none }
      else { s with pendingCall := none }

/-! ## createResume -/

inductive CreateResp where
  | missingData
  | validationFailed (errors : List String)
  | conflict
  | created (doc : ResumeDoc)
  | serverError
deriving Repr, DecidableEq

/-- HTTP status of each `createResume` response. -/
def createStatus : CreateResp → Nat
  | .missingData => 400
  | .validationFailed _ => 400
  | .conflict => 409
  | .created _ => 201
  | .serverError => 500

/-- Controller `createResume`: reject a missing body, then controller validation, then
the duplicate-email check, then save. -/
def createResume (store : List ResumeDoc) (body : Option ResumeDoc) (nid : Nat) :
    CreateResp × List ResumeDoc :=
  match body with
  | none => (.missingData, store)
  | some rd =>
    if (validateResumeData rd).length != 0 then (.validationFailed (validateResumeData rd), store)
    else if store.any (fun dd => dd.email == rd.email) then (.conflict, store)
    else
      match saveResumeData store rd false nid with
      | .ok (st2, doc) => (.created doc, st2)
      | .error _ => (.serverError, store)

/-! ## enhanceField -/

inductive EnhanceResp where
  | badRequest (msg : String)
  | notFound
  | parseFailure
  | serverError
  | okEntry (entry : EntryObj)
  | okWhole
deriving Repr, DecidableEq

/-- HTTP status of each `enhanceField` response. -/
def respStatus : EnhanceResp → Nat
  | .badRequest _ => 400
  | .notFound => 404
  | .parseFailure => 500
  | .serverError => 500
  | .okEntry _ => 200
  | .okWhole => 200

/-- The `success` flag of each `enhanceField` response body. -/
def respSuccess : EnhanceResp → Bool
  | .okEntry _ => true
  | .okWhole => true
  | _ => false

/-- The update `findByIdAndUpdate(resumeId, {$set: {[field]: ...}})` — replace one
document in the collection. -/
def updateStoreDoc (store : List ResumeDoc) (rid : Nat) (newDoc : ResumeDoc) :
    List ResumeDoc :=
  store.map (fun dd => if dd._id == some rid then newDoc else dd)

/-- The entry-mode merge of `enhanceField`:
`updatedArray[index] = {...entry.toObject(), ...enhancedData}`. -/
def applyEntryMerge (d : ResumeDoc) (f : EntryField) (i : Nat) (p : EntryObj) : ResumeDoc :=
  setEntryField d f ((getEntryField d f).set i (spreadMerge ((getEntryField d f).getD i []) p))

/-- The whole-field branch of `enhanceField`: only `summary` and `skills` are
in the `switch`; everything else hits the `default` 400. -/
def wholeFieldEnhance (store : List ResumeDoc) (rid : Nat) (resume : ResumeDoc)
    (f : String) (aiText : String) : EnhanceResp × List ResumeDoc :=
  if f == "summary" then
    (.okWhole, updateStoreDoc store rid { resume with summary := aiText })
  else if f == "skills" then
    (.okWhole, updateStoreDoc store rid { resume with skills := parseSkills aiText })
  else
    (.badRequest "Field not supported for enhancement", store)

/-- Controller `enhanceField(req)`.  `aiText` is the raw generation-model output and
`aiParsed` the outcome of `JSON.parse(aiText)` (`none`: the parse threw).
`serverError` models the catch-all 500 reached when the prompt builder
dereferences the `undefined` entry produced by a negative index. -/
def enhanceField (store : List ResumeDoc) (resumeId : Option Nat) (field : Option String)
    (index : Option Int) (aiText : String) (aiParsed : Option EntryObj) :
    EnhanceResp × List ResumeDoc :=
  match resumeId with
  | none => (.badRequest "Resume ID is required", store)
  | some rid =>
    match field with
    | none => (.badRequest "Field to enhance is required", store)
    | some f =>
      match store.find? (fun dd => dd._id == some rid) with
      | none => (.notFound, store)
      | some resume =>
        match index with
        | some i =>
          if isArrayFieldName f then
            if (arrayFieldLength resume f : Int) ≤ i then
              (.badRequest "Invalid index for field array", store)
            else
              match entryField? f with
              | none => (.badRequest "Field not supported for individual entry enhancement", store)
              | some ef =>
                match jsIndex (getEntryField resume ef) i with
                | none => (.serverError, store)
                | some entry =>
                  match aiParsed with
                  | none => (.parseFailure, store)
                  | some p =>
                    (.okEntry (spreadMerge entry p),
                     updateStoreDoc store rid (applyEntryMerge resume ef i.toNat p))
          else wholeFieldEnhance store rid resume f aiText
        | none => wholeFieldEnhance store rid resume f aiText

deriving instance DecidableEq for Except

/-! ## Concrete fixtures -/

def entExp : EntryObj :=
  [("title", "Dev"), ("companyName", "Acme"), ("date", "2020"),
   ("companyLocation", "NY"), ("description", "Work"), ("accomplishment", "Did")]

def entEdu : EntryObj :=
  [("degree", "BS"), ("institution", "MIT"), ("duration", "4y"), ("grade", "A")]

def entAch : EntryObj :=
  [("keyAchievements", "Won"), ("describe", "Prize")]

def entCrs : EntryObj :=
  [("title", "ML"), ("description", "Course")]

def entPrj : EntryObj :=
  [("title", "App"), ("duration", "3m"), ("description", "Built")]

/-- A schema-valid persisted document. -/
def baseDoc : ResumeDoc :=
  { _id := some 1, name := "Ann", role := "Dev", phone := "123",
    email := "a@b.co", linkedin := "ln", location := "NY", summary := "Sum",
    skills := ["Go"], experience := [entExp], education := [entEdu],
    achievements := [entAch], courses := [entCrs], projects := [entPrj] }

/-- A second document differing from `baseDoc`. -/
def otherDoc : ResumeDoc :=
  { baseDoc with name := "Bob" }

/-- A valid document with no `_id`, a fresh email, and a blank skill entry. -/
def freshDoc : ResumeDoc :=
  { otherDoc with _id := none, email := "new@b.co", skills := [" ", "Go"] }

/-! ## Lemmas about JS object lookup and spread -/

theorem jsGet_nil (k : String) : jsGet [] k = none := rfl

theorem jsGet_cons (x : String × String) (l : EntryObj) (k : String) :
    jsGet (x :: l) k = if x.1 == k then some x.2 else jsGet l k := by
  by_cases h : x.1 == k <;> simp [jsGet, List.find?_cons, h]

theorem jsGet_append (l1 l2 : EntryObj) (k : String) :
    jsGet (l1 ++ l2) k = if (jsGet l1 k).isSome then jsGet l1 k else jsGet l2 k := by
  unfold jsGet
  rw [List.find?_append]
  cases h : l1.find? (fun kv => kv.1 == k) <;> simp [h, Option.or]

theorem jsGet_mapOverride (a b : EntryObj) (k : String) :
    jsGet (a.map (fun kv =>
      match jsGet b kv.1 with
      | some v => (kv.1, v)
      | none => kv)) k
    = match jsGet a k with
      | some w => some ((jsGet b k).getD w)
      | none => none := by
  induction a with
  | nil => simp [jsGet]
  | cons x a ih =>
    by_cases hk : x.1 == k
    · have hx : x.1 = k := by simpa using hk
      cases hb : jsGet b x.1 <;>
        simp [List.map_cons, jsGet_cons, hk, hb, hx ▸ hb]
    · cases hb : jsGet b x.1 <;>
        simp [List.map_cons, jsGet_cons, hk, hb, ih]

theorem jsGet_filterKey (b : EntryObj) (q : String → Bool) (k : String) :
    jsGet (b.filter (fun kv => q kv.1)) k = if q k then jsGet b k else none := by
  induction b with
  | nil => simp [jsGet]
  | cons x b ih =>
    by_cases hk : x.1 == k
    · have hx : x.1 = k := by simpa using hk
      by_cases hq : q x.1 <;>
        simp [List.filter_cons, hq, jsGet_cons, hk, ih, hx ▸ hq]
    · by_cases hq : q x.1 <;>
        simp [List.filter_cons, hq, jsGet_cons, hk, ih]

/-- The JS spread `{...a, ...b}` looks a key up in `b` first and falls back to `a`. -/
theorem jsGet_spreadMerge (a b : EntryObj) (k : String) :
    jsGet (spreadMerge a b) k
    = if (jsGet b k).isSome then jsGet b k else jsGet a k := by
  unfold spreadMerge
  rw [jsGet_append, jsGet_mapOverride]
  have h3 := jsGet_filterKey b (fun s => (jsGet a s).isNone) k
  simp only at h3
  rw [h3]
  cases ha : jsGet a k <;> cases hb : jsGet b k <;> simp [ha, hb]

/-! ## Helper lemmas about the document fields -/

theorem getEntryField_setEntryField (d : ResumeDoc) (f g : EntryField) (arr : List EntryObj) :
    getEntryField (setEntryField d f arr) g = if g = f then arr else getEntryField d g := by
  cases f <;> cases g <;> simp [getEntryField, setEntryField]

theorem applyEntryMerge_preserves (d : ResumeDoc) (f : EntryField) (i : Nat) (p : EntryObj) :
    (applyEntryMerge d f i p).name = d.name
    ∧ (applyEntryMerge d f i p).role = d.role
    ∧ (applyEntryMerge d f i p).phone = d.phone
    ∧ (applyEntryMerge d f i p).email = d.email
    ∧ (applyEntryMerge d f i p).linkedin = d.linkedin
    ∧ (applyEntryMerge d f i p).location = d.location
    ∧ (applyEntryMerge d f i p).summary = d.summary
    ∧ (applyEntryMerge d f i p).skills = d.skills
    ∧ (applyEntryMerge d f i p)._id = d._id := by
  cases f <;> exact ⟨rfl, rfl, rfl, rfl, rfl, rfl, rfl, rfl, rfl⟩

/-! ## Claim C2 — entry-mode merge frame effect -/

/-- Claim C2: for every document, supported array field, in-bounds index and
partial object, the entry-mode merge changes only the overlapping keys of the
targeted entry: all other entries of that array, all other entry fields, all
scalar fields and `skills` are unchanged, and at the targeted entry a key
takes the partial's value when present there and keeps its old value
otherwise. -/
theorem entry_merge_frame_effect (d : ResumeDoc) (f : EntryField) (i : Nat) (p : EntryObj)
    (hi : i < (getEntryField d f).length) :
    (∀ (j : Nat), j ≠ i →
      (getEntryField (applyEntryMerge d f i p) f)[j]? = (getEntryField d f)[j]?)
    ∧ (∀ (g : EntryField), g ≠ f →
      getEntryField (applyEntryMerge d f i p) g = getEntryField d g)
    ∧ (applyEntryMerge d f i p).name = d.name
    ∧ (applyEntryMerge d f i p).role = d.role
    ∧ (applyEntryMerge d f i p).phone = d.phone
    ∧ (applyEntryMerge d f i p).email = d.email
    ∧ (applyEntryMerge d f i p).linkedin = d.linkedin
    ∧ (applyEntryMerge d f i p).location = d.location
    ∧ (applyEntryMerge d f i p).summary = d.summary
    ∧ (applyEntryMerge d f i p).skills = d.skills
    ∧ (applyEntryMerge d f i p)._id = d._id
    ∧ (∀ (k : String),
        jsGet ((getEntryField (applyEntryMerge d f i p) f).getD i []) k
          = if (jsGet p k).isSome then jsGet p k
            else jsGet ((getEntryField d f).getD i []) k) := by
  obtain ⟨h1, h2, h3, h4, h5, h6, h7, h8, h9⟩ := applyEntryMerge_preserves d f i p
  refine ⟨?_, ?_, h1, h2, h3, h4, h5, h6, h7, h8, h9, ?_⟩
  · intro j hj
    unfold applyEntryMerge
    rw [getEntryField_setEntryField, if_pos rfl]
    exact List.getElem?_set_ne (Ne.symm hj)
  · intro g hg
    unfold applyEntryMerge
    rw [getEntryField_setEntryField, if_neg hg]
  · intro k
    unfold applyEntryMerge
    rw [getEntryField_setEntryField, if_pos rfl]
    rw [List.getD_eq_getElem?_getD, List.getElem?_set_eq_of_lt _ hi]
    simp [jsGet_spreadMerge, List.getD_eq_getElem?_getD]

/-- Witness for C2 at a concrete document: merging
`{description: "New"}` onto `experience[0]` of `baseDoc` leaves `education`,
`skills` and the entry's `title` untouched while updating `description`. -/
theorem entry_merge_frame_effect_wit :
    0 < (getEntryField baseDoc .experience).length
    ∧ getEntryField (applyEntryMerge baseDoc .experience 0 [("description", "New")]) .education
        = getEntryField baseDoc .education
    ∧ (applyEntryMerge baseDoc .experience 0 [("description", "New")]).skills = baseDoc.skills
    ∧ jsGet ((getEntryField (applyEntryMerge baseDoc .experience 0 [("description", "New")])
        .experience).getD 0 []) "description" = some "New"
    ∧ jsGet ((getEntryField (applyEntryMerge baseDoc .experience 0 [("description", "New")])
        .experience).getD 0 []) "title"
      = jsGet ((getEntryField baseDoc .experience).getD 0 []) "title" := by
  have h := entry_merge_frame_effect baseDoc .experience 0 [("description", "New")] (by decide)
  obtain ⟨hj, hg, hsc⟩ := h
  refine ⟨by decide, hg .education (by decide), ?_, ?_, ?_⟩
  · exact hsc.2.2.2.2.2.2.2.1
  · have hd := hsc.2.2.2.2.2.2.2.2.2 "description"
    rw [hd]
    decide
  · have ht := hsc.2.2.2.2.2.2.2.2.2 "title"
    rw [ht]
    decide

/-! ## Claim C3 — skills parsing keeps blank tokens -/

/-- Claim C3 counterexample: the whole-field skills parser does **not** drop
empty tokens; `"Python, , Go ,Go"` does not parse to `["Python","Go","Go"]`. -/
theorem parse_skills_drops_blanks_cex :
    parseSkills "Python, , Go ,Go" ≠ ["Python", "Go", "Go"] := by decide

/-- Claim C3 (amended): the parser splits on commas and trims each token but
keeps empty tokens, so `"Python, , Go ,Go"` parses to
`["Python", "", "Go", "Go"]`; blanks are only removed by the save-path
`pre('save')` cleaning, which on this list yields `["Python","Go","Go"]`. -/
theorem parse_skills_split_trim_keep_blanks :
    parseSkills "Python, , Go ,Go" = ["Python", "", "Go", "Go"]
    ∧ cleanSkills (parseSkills "Python, , Go ,Go") = ["Python", "Go", "Go"] := by decide

/-! ## Claim C1 — behavior on generation-model parse failure -/

/-- Claim C1 counterexample: with a well-formed request (`experience[0]` of a
stored resume) and model output whose `JSON.parse` throws, `enhanceField`
responds with `success: false` and HTTP 500 — not with a success response. -/
theorem enhance_parse_failure_claim_cex :
    enhanceField [baseDoc] (some 1) (some "experience") (some 0) "not json" none
      = (.parseFailure, [baseDoc])
    ∧ respSuccess .parseFailure = false
    ∧ respStatus .parseFailure = 500 := by decide

/-- Claim C1 (amended): for every entry-mode enhancement whose model output
fails to parse as JSON, `enhanceField` propagates an error — HTTP 500 with
`success: false` (`Failed to parse AI enhancement response`) — while the
persisted collection is left unchanged. -/
theorem enhance_parse_failure_returns_error (store : List ResumeDoc) (rd : ResumeDoc)
    (rid : Nat) (f : String) (ef : EntryField) (i : Int) (aiText : String)
    (hfind : store.find? (fun dd => dd._id == some rid) = some rd)
    (hef : entryField? f = some ef)
    (h0 : 0 ≤ i) (hlt : i < ((getEntryField rd ef).length : Int)) :
    enhanceField store (some rid) (some f) (some i) aiText none = (.parseFailure, store)
    ∧ respStatus .parseFailure = 500
    ∧ respSuccess .parseFailure = false := by
  have harr : isArrayFieldName f = true := by simp [isArrayFieldName, hef]
  have hlen : arrayFieldLength rd f = (getEntryField rd ef).length := by
    simp [arrayFieldLength, hef]
  have hnb : ¬((arrayFieldLength rd f : Int) ≤ i) := by rw [hlen]; omega
  obtain ⟨e, he⟩ : ∃ e, jsIndex (getEntryField rd ef) i = some e := by
    unfold jsIndex
    rw [if_neg (by omega)]
    have hlt2 : i.toNat < (getEntryField rd ef).length := by omega
    exact ⟨_, List.getElem?_eq_getElem hlt2⟩
  refine ⟨?_, rfl, rfl⟩
  simp [enhanceField, hfind, harr, hef, hnb, he]

/-- Witness for the amended C1 at a concrete request. -/
theorem enhance_parse_failure_returns_error_wit :
    enhanceField [baseDoc] (some 1) (some "experience") (some 0) "oops" none
      = (.parseFailure, [baseDoc])
    ∧ respStatus .parseFailure = 500 := by
  have h := enhance_parse_failure_returns_error [baseDoc] baseDoc 1 "experience" .experience 0
    "oops" (by decide) (by decide) (by decide) (by decide)
  exact ⟨h.1, h.2.1⟩

/-! ## Claim C4 — whole-field enhancement supports only summary and skills -/

/-- Claim C4 counterexample: whole-field enhancement of the four array fields
is rejected as unsupported (400), not given a JSON-array prompt. -/
theorem whole_field_array_fields_unsupported_cex :
    enhanceField [baseDoc] (some 1) (some "experience") none "x" none
      = (.badRequest "Field not supported for enhancement", [baseDoc])
    ∧ enhanceField [baseDoc] (some 1) (some "achievements") none "x" none
      = (.badRequest "Field not supported for enhancement", [baseDoc])
    ∧ enhanceField [baseDoc] (some 1) (some "courses") none "x" none
      = (.badRequest "Field not supported for enhancement", [baseDoc])
    ∧ enhanceField [baseDoc] (some 1) (some "projects") none "x" none
      = (.badRequest "Field not supported for enhancement", [baseDoc]) := by decide

/-- Claim C4 (amended): whole-field enhancement supports exactly `summary`
(document's summary replaced by the model text) and `skills` (model text
split on commas and trimmed); every other field name, including the four
array fields, is rejected with the 400 `Field not supported for enhancement`
response. -/
theorem whole_field_supports_only_summary_skills (store : List ResumeDoc) (rd : ResumeDoc)
    (rid : Nat) (aiText : String) (aiParsed : Option EntryObj)
    (hfind : store.find? (fun dd => dd._id == some rid) = some rd) :
    enhanceField store (some rid) (some "summary") none aiText aiParsed
      = (.okWhole, updateStoreDoc store rid { rd with summary := aiText })
    ∧ enhanceField store (some rid) (some "skills") none aiText aiParsed
      = (.okWhole, updateStoreDoc store rid { rd with skills := parseSkills aiText })
    ∧ (∀ (f : String), f ≠ "summary" → f ≠ "skills" →
        enhanceField store (some rid) (some f) none aiText aiParsed
          = (.badRequest "Field not supported for enhancement", store)) := by
  refine ⟨?_, ?_, ?_⟩
  · simp [enhanceField, hfind, wholeFieldEnhance]
  · simp [enhanceField, hfind, wholeFieldEnhance]
  · intro f h1 h2
    simp [enhanceField, hfind, wholeFieldEnhance, h1, h2]

/-- Witness for the amended C4 at concrete requests. -/
theorem whole_field_supports_only_summary_skills_wit :
    enhanceField [baseDoc] (some 1) (some "summary") none "Better" none
      = (.okWhole, updateStoreDoc [baseDoc] 1 { baseDoc with summary := "Better" })
    ∧ enhanceField [baseDoc] (some 1) (some "name") none "x" none
      = (.badRequest "Field not supported for enhancement", [baseDoc]) := by
  have h1 := whole_field_supports_only_summary_skills [baseDoc] baseDoc 1 "Better" none (by decide)
  have h2 := whole_field_supports_only_summary_skills [baseDoc] baseDoc 1 "x" none (by decide)
  exact ⟨h1.1, h2.2.2 "name" (by decide) (by decide)⟩

/-! ## Claim C10 — negative index passes the bounds check -/

/-- Claim C10: the only index validation is `index >= fieldData.length`, so
every negative index passes it: the request is not rejected with the 400
invalid-index response, and the handler goes on to read the nonexistent entry
(`undefined`), ending in the catch-all 500. -/
theorem negative_index_passes_bounds_check (i : Int) (hi : i < 0) :
    (∀ (len : Nat), ¬((len : Int) ≤ i))
    ∧ (∀ (arr : List EntryObj), jsIndex arr i = none)
    ∧ (∀ (store : List ResumeDoc) (rd : ResumeDoc) (rid : Nat) (f : String) (ef : EntryField)
        (aiText : String) (aiParsed : Option EntryObj),
        store.find? (fun dd => dd._id == some rid) = some rd →
        entryField? f = some ef →
        enhanceField store (some rid) (some f) (some i) aiText aiParsed
          ≠ (.badRequest "Invalid index for field array", store)
        ∧ enhanceField store (some rid) (some f) (some i) aiText aiParsed
          = (.serverError, store)) := by
  refine ⟨fun len => by omega, fun arr => by simp [jsIndex, hi], ?_⟩
  intro store rd rid f ef aiText aiParsed hfind hef
  have harr : isArrayFieldName f = true := by simp [isArrayFieldName, hef]
  have hnb : ¬((arrayFieldLength rd f : Int) ≤ i) := by omega
  have hj : jsIndex (getEntryField rd ef) i = none := by simp [jsIndex, hi]
  constructor
  · simp [enhanceField, hfind, harr, hef, hnb, hj]
  · simp [enhanceField, hfind, harr, hef, hnb, hj]

/-- Witness for C10 at index `-1`. -/
theorem negative_index_passes_bounds_check_wit :
    ¬(((1 : Nat) : Int) ≤ -1)
    ∧ jsIndex [entExp] (-1) = none
    ∧ enhanceField [baseDoc] (some 1) (some "experience") (some (-1)) "t" none
      = (.serverError, [baseDoc]) := by
  have h := negative_index_passes_bounds_check (-1) (by decide)
  exact ⟨h.1 1, h.2.1 [entExp],
    (h.2.2 [baseDoc] baseDoc 1 "experience" .experience "t" none (by decide) (by decide)).2⟩

/-! ## Claim C5 — coalescing of two edits in one debounce window -/

/-- Claim C5 counterexample: two edits inside one debounce window ("b", then
back to the last-saved data "a") produce **zero** store writes when the timer
fires, because the debounced body compares the latest data against
`lastData`; the claim's "exactly one store write" fails. -/
theorem autosave_two_edits_no_write_cex :
    (fireDebounce
      (trackChanges (trackChanges ⟨[], some ⟨baseDoc, false, none⟩, none, []⟩ otherDoc) baseDoc)
      7 99).writes = [] := by decide

/-- Claim C5 (amended): two edits in one debounce window coalesce into one
pending invocation holding the second edit's data; on fire, exactly one store
write occurs, carrying the second edit's data, **provided** that data differs
from the tracker's `lastData` and the save succeeds; when the second edit's
data equals `lastData`, no write occurs at all. -/
theorem autosave_coalesced_single_write (store : List ResumeDoc) (t : Tracker)
    (d1 d2 : ResumeDoc) (w : List ResumeDoc) (nid now : Nat) :
    (trackChanges (trackChanges ⟨store, some t, none, w⟩ d1) d2).pendingCall = some d2
    ∧ (∀ (st2 : List ResumeDoc) (doc : ResumeDoc),
        d2 ≠ t.lastData →
        saveResumeData store d2 true nid = .ok (st2, doc) →
        fireDebounce (trackChanges (trackChanges ⟨store, some t, none, w⟩ d1) d2) nid now
          = ⟨st2, some ⟨d2, false, some now⟩, none, w ++ [d2]⟩)
    ∧ (d2 = t.lastData →
        fireDebounce (trackChanges (trackChanges ⟨store, some t, none, w⟩ d1) d2) nid now
          = ⟨store, some ⟨t.lastData, true, t.lastSavedAt⟩, none, w⟩) := by
  refine ⟨rfl, ?_, ?_⟩
  · intro st2 doc hne hsave
    have hbne : (t.lastData != d2) = true := by
      simp [bne_iff_ne]
      exact Ne.symm hne
    simp [trackChanges, fireDebounce, hbne, hsave]
  · intro heq
    subst heq
    simp [trackChanges, fireDebounce]

/-- Witness for the amended C5: an edit to `otherDoc` then to a changed valid
document, fired once, performs exactly one store write carrying the second
edit's data. -/
theorem autosave_coalesced_single_write_wit :
    (fireDebounce
      (trackChanges
        (trackChanges ⟨[baseDoc], some ⟨baseDoc, false, none⟩, none, []⟩ otherDoc)
        { baseDoc with summary := "New summary" })
      7 99).writes = [{ baseDoc with summary := "New summary" }] := by
  have h := autosave_coalesced_single_write [baseDoc] ⟨baseDoc, false, none⟩ otherDoc
    { baseDoc with summary := "New summary" } [] 7 99
  rw [(h.2.1 [{ baseDoc with summary := "New summary" }]
    { baseDoc with summary := "New summary" } (by decide) (by decide))]
  simp

/-! ## Claim C7 — failed autosave keeps the tracker pending -/

/-- Claim C7: when the debounced autosave's store write fails, the error is
swallowed (the step still returns a state, never a thrown error), the tracker
keeps `pendingSave = true` with `lastData` not updated, and no write is
recorded — so a later edit or timer firing can retry. -/
theorem autosave_failure_keeps_pending (store : List ResumeDoc) (t : Tracker)
    (d : ResumeDoc) (w : List ResumeDoc) (nid now : Nat) (e : String)
    (hp : t.pendingSave = true) (hne : t.lastData ≠ d)
    (hfail : saveResumeData store d true nid = .error e) :
    fireDebounce ⟨store, some t, some d, w⟩ nid now = ⟨store, some t, none, w⟩ := by
  have hbne : (t.lastData != d) = true := by simp [bne_iff_ne, hne]
  simp [fireDebounce, hp, hbne, hfail]

/-- Witness for C7: autosaving a document whose `_id` is absent from the
store fails with `Resume not found` and leaves the tracker pending. -/
theorem autosave_failure_keeps_pending_wit :
    saveResumeData [baseDoc] { otherDoc with _id := some 99 } true 5 = .error "Resume not found"
    ∧ fireDebounce ⟨[baseDoc], some ⟨baseDoc, true, none⟩,
        some { otherDoc with _id := some 99 }, []⟩ 5 42
      = ⟨[baseDoc], some ⟨baseDoc, true, none⟩, none, []⟩ := by
  refine ⟨by decide, ?_⟩
  exact autosave_failure_keeps_pending [baseDoc] ⟨baseDoc, true, none⟩
    { otherDoc with _id := some 99 } [] 5 42 "Resume not found" rfl (by decide) (by decide)

/-! ## Claim C8 — edit notifications set pendingSave unconditionally -/

/-- Claim C8 counterexample: an edit notification whose snapshot deep-equals
`lastKnownData` (`baseDoc` twice) still flips the tracker to
`pendingSave = true` — the tracker does not stay Idle. -/
theorem track_changes_equal_data_sets_pending_cex :
    (trackChanges ⟨[], some ⟨baseDoc, false, none⟩, none, []⟩ baseDoc).tracker
      = some ⟨baseDoc, true, none⟩ := by decide

/-- Claim C8 (amended): for an already-tracked user, `trackChanges` sets
`pendingSave` unconditionally — without comparing the new snapshot to
`lastKnownData` (the deep-equality comparison happens only later, in the
debounced save); for an untracked user it creates an Idle tracker holding the
snapshot. -/
theorem track_changes_always_sets_pending (store : List ResumeDoc) (t : Tracker)
    (pc : Option ResumeDoc) (w : List ResumeDoc) (d : ResumeDoc) :
    (trackChanges ⟨store, some t, pc, w⟩ d).tracker
      = some ⟨t.lastData, true, t.lastSavedAt⟩
    ∧ (trackChanges ⟨store, none, pc, w⟩ d).tracker = some ⟨d, false, none⟩ := by
  exact ⟨rfl, rfl⟩

/-! ## Claim C6 — create: duplicate email vs validation -/

/-- Claim C6 counterexample: a create request whose email already exists but
which fails required-field validation (empty name) is rejected with the 400
validation response, not the 409 conflict the claim requires for *every*
duplicate-email request. -/
theorem create_invalid_duplicate_email_cex :
    createResume [baseDoc] (some { baseDoc with _id := none, name := "" }) 2
      = (.validationFailed ["Name is required"], [baseDoc])
    ∧ [baseDoc].any (fun dd => dd.email == ({ baseDoc with _id := none, name := "" } : ResumeDoc).email)
      = true
    ∧ createStatus (.validationFailed ["Name is required"]) = 400 := by decide

/-- Claim C6 (amended): `createResume` checks required-field validation
before the duplicate-email check: any request failing validation gets 400
with the error list (even if its email already exists), and any
validation-passing request whose email already identifies a stored document
gets the 409 conflict regardless of differences in the other fields. -/
theorem create_validation_then_conflict (store : List ResumeDoc) (rd : ResumeDoc) (nid : Nat) :
    (validateResumeData rd ≠ [] →
      (createResume store (some rd) nid).1 = .validationFailed (validateResumeData rd))
    ∧ (validateResumeData rd = [] →
      store.any (fun dd => dd.email == rd.email) = true →
      (createResume store (some rd) nid).1 = .conflict) := by
  constructor
  · intro hv
    have hlen : (validateResumeData rd).length ≠ 0 := by
      intro h0
      exact hv (List.length_eq_zero.mp h0)
    simp [createResume, hlen]
  · intro hv hany
    simp [createResume, hv, hany]

/-- Witness for the amended C6: a valid duplicate-email request (differing
from the stored document in `name`) draws the 409, and an invalid request
draws the 400 list. -/
theorem create_validation_then_conflict_wit :
    validateResumeData { otherDoc with _id := none } = []
    ∧ (createResume [baseDoc] (some { otherDoc with _id := none }) 2).1 = .conflict
    ∧ createStatus .conflict = 409
    ∧ (createResume [] (some { baseDoc with email := "bad" }) 2).1
      = .validationFailed ["Valid email is required"] := by
  refine ⟨by decide, ?_, by decide, ?_⟩
  · exact (create_validation_then_conflict [baseDoc] { otherDoc with _id := none } 2).2
      (by decide) (by decide)
  · have h := (create_validation_then_conflict [] { baseDoc with email := "bad" } 2).1
      (by decide)
    rw [h]
    decide

/-! ## Claim C9 — skills cleaning happens only on the create path -/

/-- Claim C9 counterexample: an update-by-id save (`_id` present) goes
through `findByIdAndUpdate`, which does not run the `pre('save')` hook, so a
whitespace-only skill survives in the persisted document. -/
theorem update_path_skills_not_cleaned_cex :
    saveResumeData [baseDoc] { baseDoc with skills := [" ", "Go"] } false 2
      = .ok ([{ baseDoc with skills := [" ", "Go"] }], { baseDoc with skills := [" ", "Go"] })
    ∧ [" ", "Go"] ≠ cleanSkills [" ", "Go"] := by decide

/-- Claim C9 (amended): on save, skills are trimmed and cleaned of blank
entries only when a **new** document is persisted through
`new Resume().save()` (no `_id`, email not yet stored); the update-by-id path
uses `findByIdAndUpdate`, which bypasses the `pre('save')` hook and persists
the skills exactly as given. -/
theorem skills_cleaned_only_on_create_path (store : List ResumeDoc) (rd : ResumeDoc) (nid : Nat) :
    (rd._id = none →
      store.find? (fun dd => dd.email == rd.email) = none →
      schemaValidate rd = true →
      validateResumeData rd = [] →
      saveResumeData store rd false nid
        = .ok (store ++ [{ rd with _id := some nid, skills := cleanSkills rd.skills }],
               { rd with _id := some nid, skills := cleanSkills rd.skills }))
    ∧ (∀ (i : Nat), rd._id = some i →
      store.any (fun dd => dd._id == some i) = true →
      schemaValidate rd = true →
      validateResumeData rd = [] →
      saveResumeData store rd false nid
        = .ok (store.map (fun dd => if dd._id == some i then { rd with _id := some i } else dd),
               { rd with _id := some i })
      ∧ ({ rd with _id := some i } : ResumeDoc).skills = rd.skills) := by
  constructor
  · intro hid hfind hsv hval
    simp [saveResumeData, hval, hid, hfind, hsv]
  · intro i hid hany hsv hval
    refine ⟨?_, rfl⟩
    simp [saveResumeData, findByIdAndUpdateFull, hval, hid, hany, hsv]

/-- Witness for the amended C9: creating `freshDoc` persists cleaned skills
`["Go"]`, while updating `baseDoc` by id keeps the blank entry. -/
theorem skills_cleaned_only_on_create_path_wit :
    saveResumeData [baseDoc] freshDoc false 2
      = .ok ([baseDoc] ++ [{ freshDoc with _id := some 2, skills := cleanSkills freshDoc.skills }],
             { freshDoc with _id := some 2, skills := cleanSkills freshDoc.skills })
    ∧ cleanSkills freshDoc.skills = ["Go"]
    ∧ ({ baseDoc with skills := [" ", "Go"] } : ResumeDoc)._id = some 1
    ∧ saveResumeData [baseDoc] { baseDoc with skills := [" ", "Go"] } false 3
      = .ok ([{ baseDoc with skills := [" ", "Go"] }], { baseDoc with skills := [" ", "Go"] }) := by
  refine ⟨?_, by decide, by decide, ?_⟩
  · exact (skills_cleaned_only_on_create_path [baseDoc] freshDoc 2).1 rfl
      (by decide) (by decide) (by decide)
  · have h := ((skills_cleaned_only_on_create_path [baseDoc]
      { baseDoc with skills := [" ", "Go"] } 3).2 1 rfl (by decide) (by decide) (by decide)).1
    rw [h]
    decide

end AiResume
